import Mathlib

/-!
Shallow embedding of the post-execution introspection layer of the
repository (`src/zenml/post_execution/step.py` and
`src/zenml/post_execution/artifact.py`).

The metadata store is modelled by the responses it gives to the four
facade queries that a single `PEStep` issues for its own execution id:
`get_executions_by_id([id])`, `get_artifact_types()`,
`get_events_by_execution_ids([id])` and `get_artifacts_by_id([...])`.
Python `dict`/`OrderedDict` values are modelled as association lists in
insertion order, with the Python assignment semantics (assigning to an
existing key updates the value in place, keeping its position; a new key
is appended).  Python exceptions are modelled by `Except PyError`.
-/

/-- Execution states of an MLMD execution proto (`proto.last_known_state`).
The source compares against `proto.COMPLETE`, `proto.CACHED` and
`proto.RUNNING`; every other state falls into the final `else` branch. -/
inductive ExecutionState where
  | UNKNOWN
  | NEW
  | RUNNING
  | COMPLETE
  | FAILED
  | CACHED
  | CANCELED
deriving DecidableEq, Repr

/-- The `ExecutionStatus` enum from `step.py`. -/
inductive ExecutionStatus where
  | Failed
  | Completed
  | Running
deriving DecidableEq, Repr

/-- Event types of an MLMD event proto.  The source only distinguishes
`event_proto.INPUT` and `event_proto.OUTPUT`; every other event type is
silently skipped, which `OTHER` stands for. -/
inductive EventType where
  | INPUT
  | OUTPUT
  | OTHER
deriving DecidableEq, Repr

/-- An artifact type record as returned by `store.get_artifact_types()`. -/
structure TypeProto where
  id : Nat
  name : String
deriving DecidableEq, Repr

/-- An execution record as returned by `store.get_executions_by_id`. -/
structure ExecutionProto where
  id : Nat
  last_known_state : ExecutionState
deriving DecidableEq, Repr

/-- An event record as returned by `store.get_events_by_execution_ids`.
`pathKey` is `event_proto.path.steps[0].key`, the declared parameter
name carried in the event's path. -/
structure EventProto where
  artifact_id : Nat
  pathKey : String
  type : EventType
deriving DecidableEq, Repr

/-- An artifact record as returned by `store.get_artifacts_by_id`.
`materializerProp` is `properties[MATERIALIZERS_PROPERTY_KEY].string_value`;
protobuf map access yields a default (empty) value for an absent key, so
this field is total. -/
structure ArtifactProto where
  id : Nat
  type_id : Nat
  uri : String
  materializerProp : String
deriving DecidableEq, Repr

/-- The `PEArtifact` view built by the join (`artifact.py`): identity,
resolved type name, storage URI and the materializer identifier. -/
structure PEArtifact where
  id : Nat
  type : String
  uri : String
  materializer : String
deriving DecidableEq, Repr

/-- Python exceptions that the embedded operations can raise. -/
inductive PyError where
  /-- `IndexError` from `[0]` on an empty list. -/
  | indexError
  /-- `KeyError` from `artifact_type_mapping[artifact_proto.type_id]`
  when the type id is absent from the type dictionary. -/
  | typeKeyError (type_id : Nat)
  /-- The `KeyError` re-raised by `get_input`/`get_output`, carrying the
  requested name and the list of currently known valid names. -/
  | notFound (requested : String) (validNames : List String)
  /-- A `LookupError`-kind failure of codec (materializer) resolution. -/
  | lookupError (identifier : String)
deriving DecidableEq, Repr

/-- The store's responses relevant to one `PEStep`: `executions` is the
reply to `get_executions_by_id([self._id])`, `types` the reply to
`get_artifact_types()`, `events` the reply to
`get_events_by_execution_ids([self._id])` and `artifacts` the reply to
`get_artifacts_by_id([event.artifact_id for event in events])`. -/
structure Store where
  executions : List ExecutionProto
  types : List TypeProto
  events : List EventProto
  artifacts : List ArtifactProto
deriving Repr

/-- The mutable part of a `PEStep`: its `_inputs` and `_outputs` ordered
mappings from parameter name to artifact view. -/
structure StepState where
  inputs : List (String × PEArtifact)
  outputs : List (String × PEArtifact)
deriving DecidableEq, Repr

/-- Fresh `PEStep` state: both `_inputs` and `_outputs` start empty. -/
def initStep : StepState := ⟨[], []⟩

/-- The state-code mapping inside `PEStep.status`: COMPLETE or CACHED maps
to Completed, RUNNING to Running, everything else to Failed. -/
def mapState (s : ExecutionState) : ExecutionStatus :=
  if s = .COMPLETE ∨ s = .CACHED then .Completed
  else if s = .RUNNING then .Running
  else .Failed

/-- The `status` property: `get_executions_by_id([self._id])[0]` followed
by the state mapping.  Indexing `[0]` on an empty reply raises
`IndexError`. -/
def PEStep.status (executions : List ExecutionProto) : Except PyError ExecutionStatus :=
  match executions with
  | [] => .error .indexError
  | proto :: _ => .ok (mapState proto.last_known_state)

/-- Lookup in the dict comprehension
`{type_.id: type_.name for type_ in store.get_artifact_types()}`.
A duplicate id later in the list overwrites an earlier one, so lookup
finds the 'last' matching record. -/
def lookupType (types : List TypeProto) (tid : Nat) : Option String :=
  (types.reverse.find? fun t => t.id == tid).map TypeProto.name

/-- Association-list lookup, modelling `d[k]` read access on a Python
dict (first entry wins; keys are unique by construction). -/
def lookupAssoc (m : List (String × PEArtifact)) (k : String) : Option PEArtifact :=
  match m with
  | [] => none
  | kv :: rest => if kv.1 = k then some kv.2 else lookupAssoc rest k

/-- Python dict assignment `d[k] = v`: an existing key keeps its position
and gets the new value; a new key is appended at the end. -/
def odInsert (m : List (String × PEArtifact)) (k : String) (v : PEArtifact) :
    List (String × PEArtifact) :=
  match m with
  | [] => [(k, v)]
  | kv :: rest => if kv.1 = k then (k, v) :: rest else kv :: odInsert rest k v

/-- Builds the `PEArtifact` for one `(event, artifact)` pair of the join:
resolve the type name through the type dictionary (a failed lookup is the
Python `KeyError`), then package id, type name, uri and materializer. -/
def mkArtifact (types : List TypeProto) (ev : EventProto) (ar : ArtifactProto) :
    Option PEArtifact :=
  (lookupType types ar.type_id).map fun tname =>
    ⟨ev.artifact_id, tname, ar.uri, ar.materializerProp⟩

/-- One iteration of the `for event_proto, artifact_proto in zip(...)`
loop body: build the artifact view and insert it into `_inputs` or
`_outputs` according to the event type (other event types are skipped). -/
def processPair (types : List TypeProto) (st : StepState)
    (ev : EventProto) (ar : ArtifactProto) : Except PyError StepState :=
  match mkArtifact types ev ar with
  | none => .error (.typeKeyError ar.type_id)
  | some artifact =>
    match ev.type with
    | .INPUT => .ok { st with inputs := odInsert st.inputs ev.pathKey artifact }
    | .OUTPUT => .ok { st with outputs := odInsert st.outputs ev.pathKey artifact }
    | .OTHER => .ok st

/-- The whole zip loop.  A raised `KeyError` aborts the loop; the state
accumulated so far (the Python object's mutated `_inputs`/`_outputs`)
is returned alongside the error, exactly as the mutation-in-place code
leaves it. -/
def runJoin (types : List TypeProto) (pairs : List (EventProto × ArtifactProto))
    (st : StepState) : StepState × Option PyError :=
  match pairs with
  | [] => (st, none)
  | (ev, ar) :: rest =>
    match processPair types st ev ar with
    | .error e => (st, some e)
    | .ok st' => runJoin types rest st'

/-- The fetch part of `_ensure_inputs_outputs_fetched` past the guard:
events and artifacts are paired positionally by `zip` and folded into
the two mappings. -/
def fetchJoin (store : Store) : StepState × Option PyError :=
  runJoin store.types (store.events.zip store.artifacts) initStep

/-- `_ensure_inputs_outputs_fetched`: if either mapping is non-empty the
call returns immediately; otherwise the join runs.  The middle component
counts how many times `get_events_by_execution_ids` was invoked by this
call (0 or 1). -/
def ensureFetched (store : Store) (s : StepState) : StepState × Nat × Option PyError :=
  if s.inputs ≠ [] ∨ s.outputs ≠ [] then (s, 0, none)
  else
    let (js, err) := fetchJoin store
    (js, 1, err)

/-- The `inputs` property: ensure fetched, then `list(self._inputs.values())`. -/
def PEStep.inputs (store : Store) (s : StepState) : StepState × List PEArtifact :=
  let (s', _, _) := ensureFetched store s
  (s', s'.inputs.map Prod.snd)

/-- The `outputs` property: ensure fetched, then `list(self._outputs.values())`. -/
def PEStep.outputs (store : Store) (s : StepState) : StepState × List PEArtifact :=
  let (s', _, _) := ensureFetched store s
  (s', s'.outputs.map Prod.snd)

/-- `get_input_names`: ensure fetched, then `list(self._inputs.keys())`. -/
def PEStep.get_input_names (store : Store) (s : StepState) : StepState × List String :=
  let (s', _, _) := ensureFetched store s
  (s', s'.inputs.map Prod.fst)

/-- `get_output_names`: ensure fetched, then `list(self._outputs.keys())`. -/
def PEStep.get_output_names (store : Store) (s : StepState) : StepState × List String :=
  let (s', _, _) := ensureFetched store s
  (s', s'.outputs.map Prod.fst)

/-- `get_input`: the call to `_ensure_inputs_outputs_fetched` sits
outside any `try`, so an error raised by the join propagates out of
`get_input` unmodified; then the name is looked up in `_inputs`, a
`KeyError` being re-raised as the NotFound error carrying the name and
`self.get_input_names()` (whose own `_ensure_inputs_outputs_fetched`
call runs first and can itself raise the join's error). -/
def PEStep.get_input (store : Store) (s : StepState) (name : String) :
    StepState × Except PyError PEArtifact :=
  match ensureFetched store s with
  | (s', _, some e) => (s', .error e)
  | (s', _, none) =>
    match lookupAssoc s'.inputs name with
    | some a => (s', .ok a)
    | none =>
      match ensureFetched store s' with
      | (s'', _, some e) => (s'', .error e)
      | (s'', _, none) => (s'', .error (.notFound name (s''.inputs.map Prod.fst)))

/-- `get_output`: symmetric to `get_input` over `_outputs`, with the
same propagation of a join error raised by
`_ensure_inputs_outputs_fetched`. -/
def PEStep.get_output (store : Store) (s : StepState) (name : String) :
    StepState × Except PyError PEArtifact :=
  match ensureFetched store s with
  | (s', _, some e) => (s', .error e)
  | (s', _, none) =>
    match lookupAssoc s'.outputs name with
    | some a => (s', .ok a)
    | none =>
      match ensureFetched store s' with
      | (s'', _, some e) => (s'', .error e)
      | (s'', _, none) => (s'', .error (.notFound name (s''.outputs.map Prod.fst)))

/-- The public accessors of a `PEStep` that trigger lazy population. -/
inductive Access where
  | inputs
  | outputs
  | get_input_names
  | get_output_names
  | get_input (name : String)
  | get_output (name : String)
deriving DecidableEq, Repr

/-- Runs one accessor, returning the new state and the number of times
`get_events_by_execution_ids` was invoked during the call.  A failing
`get_input`/`get_output` calls `_ensure_inputs_outputs_fetched` a second
time through `get_input_names`/`get_output_names`. -/
def runAccess (store : Store) (s : StepState) : Access → StepState × Nat
  | .inputs =>
    let (s', n, _) := ensureFetched store s
    (s', n)
  | .outputs =>
    let (s', n, _) := ensureFetched store s
    (s', n)
  | .get_input_names =>
    let (s', n, _) := ensureFetched store s
    (s', n)
  | .get_output_names =>
    let (s', n, _) := ensureFetched store s
    (s', n)
  | .get_input name =>
    let (s', n, _) := ensureFetched store s
    match lookupAssoc s'.inputs name with
    | some _ => (s', n)
    | none =>
      let (s'', n2, _) := ensureFetched store s'
      (s'', n + n2)
  | .get_output name =>
    let (s', n, _) := ensureFetched store s
    match lookupAssoc s'.outputs name with
    | some _ => (s', n)
    | none =>
      let (s'', n2, _) := ensureFetched store s'
      (s'', n + n2)

/-- Runs a sequence of accessor calls from an intermediate state and
invocation count. -/
def runAccessesAux (store : Store) : List Access → StepState × Nat → StepState × Nat
  | [], acc => acc
  | a :: rest, acc =>
    let (s', n) := runAccess store acc.1 a
    runAccessesAux store rest (s', acc.2 + n)

/-- Runs a sequence of accessor calls, accumulating the number of
`get_events_by_execution_ids` invocations. -/
def runAccesses (store : Store) (s : StepState) (accesses : List Access) :
    StepState × Nat :=
  runAccessesAux store accesses (s, 0)

/-- A codec registry as the spec describes the Codec Registry contract:
resolving an identifier either yields a codec (a decode function of the
storage URI) or fails.  The payload type is opaque to this layer and
modelled as `String`. -/
def Registry := String → Option (String → String)

/-- `PEArtifact.read` from `artifact.py`: with no `materializer_class`
override the stored identifier is resolved through the registry (an
unresolvable identifier is the propagated `LookupError`); the resolved
or overriding codec is then instantiated on the view (which exposes its
`uri`) and its `handle_input` result returned. -/
def PEArtifact.read (registry : Registry) (a : PEArtifact)
    (override : Option (String → String)) : Except PyError String :=
  match override with
  | some codec => .ok (codec a.uri)
  | none =>
    match registry a.materializer with
    | none => .error (.lookupError a.materializer)
    | some codec => .ok (codec a.uri)

/-!
Specification-side helper definitions used to state the theorems.
-/

/-- Sequential Python dict assignments applied to `m`, left to right. -/
def insList (m : List (String × PEArtifact)) (kvs : List (String × PEArtifact)) :
    List (String × PEArtifact) :=
  match kvs with
  | [] => m
  | kv :: rest => insList (odInsert m kv.1 kv.2) rest

/-- Whether the artifact of a zipped `(event, artifact)` pair resolves
through the type dictionary. -/
def resolves (types : List TypeProto) (p : EventProto × ArtifactProto) : Bool :=
  (mkArtifact types p.1 p.2).isSome

/-- The key/value assignments the join loop performs on `_inputs`, in
loop (store-returned) order. -/
def inputKVs (types : List TypeProto) (pairs : List (EventProto × ArtifactProto)) :
    List (String × PEArtifact) :=
  pairs.filterMap fun p =>
    match p.1.type with
    | .INPUT => (mkArtifact types p.1 p.2).map fun a => (p.1.pathKey, a)
    | _ => none

/-- The key/value assignments the join loop performs on `_outputs`, in
loop (store-returned) order. -/
def outputKVs (types : List TypeProto) (pairs : List (EventProto × ArtifactProto)) :
    List (String × PEArtifact) :=
  pairs.filterMap fun p =>
    match p.1.type with
    | .OUTPUT => (mkArtifact types p.1 p.2).map fun a => (p.1.pathKey, a)
    | _ => none

/-- The zipped `(event, artifact)` pairs whose event is tagged INPUT, in
store-returned order. -/
def inputPairs (store : Store) : List (EventProto × ArtifactProto) :=
  (store.events.zip store.artifacts).filter fun p => p.1.type == EventType.INPUT

/-- The zipped `(event, artifact)` pairs whose event is tagged OUTPUT, in
store-returned order. -/
def outputPairs (store : Store) : List (EventProto × ArtifactProto) :=
  (store.events.zip store.artifacts).filter fun p => p.1.type == EventType.OUTPUT

/-- The value of the last assignment in `kvs` whose key is `k` (the
last-write-wins reference semantics). -/
def lastVal (kvs : List (String × PEArtifact)) (k : String) : Option PEArtifact :=
  match kvs with
  | [] => none
  | kv :: rest => (lastVal rest k).or (if kv.1 = k then some kv.2 else none)

/-!
Helper lemmas about the ordered-mapping operations.
-/

theorem odInsert_keys_mem (m : List (String × PEArtifact)) (k : String) (v : PEArtifact)
    (h : k ∈ m.map Prod.fst) :
    (odInsert m k v).map Prod.fst = m.map Prod.fst := by
  induction m with
  | nil => simp at h
  | cons kv rest ih =>
    simp only [List.map_cons, List.mem_cons] at h
    by_cases hk : kv.1 = k
    · simp [odInsert, hk]
    · rcases h with h | h
      · exact absurd h.symm hk
      · simp [odInsert, hk, ih h]

theorem odInsert_keys_notMem (m : List (String × PEArtifact)) (k : String) (v : PEArtifact)
    (h : k ∉ m.map Prod.fst) :
    (odInsert m k v).map Prod.fst = m.map Prod.fst ++ [k] := by
  induction m with
  | nil => simp [odInsert]
  | cons kv rest ih =>
    simp only [List.map_cons, List.mem_cons, not_or] at h
    have hk : kv.1 ≠ k := fun hh => h.1 hh.symm
    simp [odInsert, hk, ih h.2]

theorem insList_keys_nodup (kvs : List (String × PEArtifact))
    (m : List (String × PEArtifact))
    (hnd : (kvs.map Prod.fst).Nodup)
    (hdisj : ∀ k ∈ kvs.map Prod.fst, k ∉ m.map Prod.fst) :
    (insList m kvs).map Prod.fst = m.map Prod.fst ++ kvs.map Prod.fst := by
  induction kvs generalizing m with
  | nil => simp [insList]
  | cons kv rest ih =>
    simp only [List.map_cons, List.nodup_cons] at hnd
    have h1 : kv.1 ∉ m.map Prod.fst := hdisj kv.1 (by simp)
    have hkeys := odInsert_keys_notMem m kv.1 kv.2 h1
    have hdisj' : ∀ k ∈ rest.map Prod.fst, k ∉ (odInsert m kv.1 kv.2).map Prod.fst := by
      intro k hkr
      rw [hkeys]
      simp only [List.mem_append, List.mem_singleton, not_or]
      exact ⟨hdisj k (by simp [hkr]), fun hcontra => hnd.1 (hcontra ▸ hkr)⟩
    show (insList (odInsert m kv.1 kv.2) rest).map Prod.fst = _
    rw [ih (odInsert m kv.1 kv.2) hnd.2 hdisj', hkeys]
    simp

theorem lookupAssoc_odInsert_self (m : List (String × PEArtifact)) (k : String)
    (v : PEArtifact) :
    lookupAssoc (odInsert m k v) k = some v := by
  induction m with
  | nil => simp [odInsert, lookupAssoc]
  | cons kv rest ih =>
    by_cases hk : kv.1 = k
    · simp [odInsert, hk, lookupAssoc]
    · simp [odInsert, hk, lookupAssoc, ih]

theorem lookupAssoc_odInsert_ne (m : List (String × PEArtifact)) (k : String)
    (v : PEArtifact) (k' : String) (h : k' ≠ k) :
    lookupAssoc (odInsert m k v) k' = lookupAssoc m k' := by
  induction m with
  | nil => simp [odInsert, lookupAssoc, Ne.symm h]
  | cons kv rest ih =>
    by_cases hk : kv.1 = k
    · subst hk
      simp [odInsert, lookupAssoc, Ne.symm h]
    · by_cases hk' : kv.1 = k'
      · simp [odInsert, lookupAssoc, hk, hk', h]
      · simp [odInsert, lookupAssoc, hk, hk', h, ih]

theorem lookupAssoc_insList (kvs : List (String × PEArtifact))
    (m : List (String × PEArtifact)) (k : String) :
    lookupAssoc (insList m kvs) k = (lastVal kvs k).or (lookupAssoc m k) := by
  induction kvs generalizing m with
  | nil => simp [insList, lastVal]
  | cons kv rest ih =>
    show lookupAssoc (insList (odInsert m kv.1 kv.2) rest) k = _
    rw [ih]
    cases h : lastVal rest k with
    | some v => simp [lastVal, h, Option.or]
    | none =>
      by_cases hk : kv.1 = k
      · subst hk
        simp [lastVal, h, Option.or, lookupAssoc_odInsert_self]
      · simp [lastVal, h, Option.or, hk, lookupAssoc_odInsert_ne m kv.1 kv.2 k (Ne.symm hk)]

/-!
Lemmas relating the join loop to the assignment lists.
-/

theorem runJoin_ok (types : List TypeProto) (pairs : List (EventProto × ArtifactProto))
    (st : StepState) (h : ∀ p ∈ pairs, resolves types p = true) :
    runJoin types pairs st =
      (⟨insList st.inputs (inputKVs types pairs), insList st.outputs (outputKVs types pairs)⟩,
       none) := by
  induction pairs generalizing st with
  | nil => simp [runJoin, insList, inputKVs, outputKVs]
  | cons p rest ih =>
    obtain ⟨ev, ar⟩ := p
    have h1 : resolves types (ev, ar) = true := h _ (List.mem_cons_self _ _)
    rw [resolves] at h1
    obtain ⟨a, ha⟩ := Option.isSome_iff_exists.mp h1
    have hrest : ∀ p ∈ rest, resolves types p = true :=
      fun p hp => h p (List.mem_cons_of_mem _ hp)
    cases hty : ev.type with
    | INPUT =>
      simp only [runJoin, processPair, ha, hty]
      rw [ih _ hrest]
      simp [inputKVs, outputKVs, List.filterMap_cons, ha, hty, insList]
    | OUTPUT =>
      simp only [runJoin, processPair, ha, hty]
      rw [ih _ hrest]
      simp [inputKVs, outputKVs, List.filterMap_cons, ha, hty, insList]
    | OTHER =>
      simp only [runJoin, processPair, ha, hty]
      rw [ih _ hrest]
      simp [inputKVs, outputKVs, List.filterMap_cons, hty]

theorem inputKVs_keys (types : List TypeProto) (pairs : List (EventProto × ArtifactProto))
    (h : ∀ p ∈ pairs, resolves types p = true) :
    (inputKVs types pairs).map Prod.fst =
      (pairs.filter fun p => p.1.type == EventType.INPUT).map fun p => p.1.pathKey := by
  induction pairs with
  | nil => simp [inputKVs]
  | cons p rest ih =>
    have h1 : resolves types p = true := h _ (List.mem_cons_self _ _)
    rw [resolves] at h1
    obtain ⟨a, ha⟩ := Option.isSome_iff_exists.mp h1
    have hrest : ∀ q ∈ rest, resolves types q = true :=
      fun q hq => h q (List.mem_cons_of_mem _ hq)
    cases hty : p.1.type <;>
      simp [inputKVs, List.filterMap_cons, List.filter_cons, ha, hty] <;>
      exact ih hrest

theorem outputKVs_keys (types : List TypeProto) (pairs : List (EventProto × ArtifactProto))
    (h : ∀ p ∈ pairs, resolves types p = true) :
    (outputKVs types pairs).map Prod.fst =
      (pairs.filter fun p => p.1.type == EventType.OUTPUT).map fun p => p.1.pathKey := by
  induction pairs with
  | nil => simp [outputKVs]
  | cons p rest ih =>
    have h1 : resolves types p = true := h _ (List.mem_cons_self _ _)
    rw [resolves] at h1
    obtain ⟨a, ha⟩ := Option.isSome_iff_exists.mp h1
    have hrest : ∀ q ∈ rest, resolves types q = true :=
      fun q hq => h q (List.mem_cons_of_mem _ hq)
    cases hty : p.1.type <;>
      simp [outputKVs, List.filterMap_cons, List.filter_cons, ha, hty] <;>
      exact ih hrest

/-!
Lemmas about the memoization guard.
-/

theorem ensureFetched_nonempty (store : Store) (s : StepState)
    (h : s.inputs ≠ [] ∨ s.outputs ≠ []) :
    ensureFetched store s = (s, 0, none) := by
  simp [ensureFetched, h]

theorem ensureFetched_init (store : Store) :
    ensureFetched store initStep = ((fetchJoin store).1, 1, (fetchJoin store).2) := by
  have : ¬(initStep.inputs ≠ [] ∨ initStep.outputs ≠ []) := by simp [initStep]
  rw [ensureFetched, if_neg this]

theorem ensureFetched_state_idem (store : Store) :
    (ensureFetched store (fetchJoin store).1).1 = (fetchJoin store).1 := by
  by_cases h : (fetchJoin store).1.inputs ≠ [] ∨ (fetchJoin store).1.outputs ≠ []
  · rw [ensureFetched_nonempty store _ h]
  · rw [ensureFetched, if_neg h]

/-!
Lemmas about accessor sequences and the invocation count.
-/

theorem runAccess_populated (store : Store) (s : StepState)
    (h : s.inputs ≠ [] ∨ s.outputs ≠ []) (a : Access) :
    runAccess store s a = (s, 0) := by
  cases a with
  | inputs => simp [runAccess, ensureFetched_nonempty store s h]
  | outputs => simp [runAccess, ensureFetched_nonempty store s h]
  | get_input_names => simp [runAccess, ensureFetched_nonempty store s h]
  | get_output_names => simp [runAccess, ensureFetched_nonempty store s h]
  | get_input name =>
    simp only [runAccess, ensureFetched_nonempty store s h]
    cases lookupAssoc s.inputs name <;> simp [ensureFetched_nonempty store s h]
  | get_output name =>
    simp only [runAccess, ensureFetched_nonempty store s h]
    cases lookupAssoc s.outputs name <;> simp [ensureFetched_nonempty store s h]

theorem runAccess_init (store : Store)
    (hne : (fetchJoin store).1.inputs ≠ [] ∨ (fetchJoin store).1.outputs ≠ [])
    (a : Access) :
    runAccess store initStep a = ((fetchJoin store).1, 1) := by
  cases a with
  | inputs => simp [runAccess, ensureFetched_init store]
  | outputs => simp [runAccess, ensureFetched_init store]
  | get_input_names => simp [runAccess, ensureFetched_init store]
  | get_output_names => simp [runAccess, ensureFetched_init store]
  | get_input name =>
    simp only [runAccess, ensureFetched_init store]
    cases lookupAssoc (fetchJoin store).1.inputs name <;>
      simp [ensureFetched_nonempty store _ hne]
  | get_output name =>
    simp only [runAccess, ensureFetched_init store]
    cases lookupAssoc (fetchJoin store).1.outputs name <;>
      simp [ensureFetched_nonempty store _ hne]

theorem runAccessesAux_populated (store : Store) (s : StepState)
    (h : s.inputs ≠ [] ∨ s.outputs ≠ []) (accesses : List Access) (c : Nat) :
    runAccessesAux store accesses (s, c) = (s, c) := by
  induction accesses with
  | nil => rfl
  | cons a rest ih =>
    calc runAccessesAux store (a :: rest) (s, c)
        = runAccessesAux store rest ((runAccess store s a).1, c + (runAccess store s a).2) :=
          rfl
      _ = runAccessesAux store rest (s, c) := by
          rw [runAccess_populated store s h a]
          rfl
      _ = (s, c) := ih

/-!
The fail-fast behavior of the join loop.
-/

theorem runJoin_fail_fast (types : List TypeProto)
    (pairs : List (EventProto × ArtifactProto)) (st : StepState) :
    runJoin types pairs st =
      ((runJoin types (pairs.takeWhile (resolves types)) st).1,
       match pairs.dropWhile (resolves types) with
       | [] => none
       | p :: _ => some (.typeKeyError p.2.type_id)) := by
  induction pairs generalizing st with
  | nil => simp [runJoin]
  | cons p rest ih =>
    obtain ⟨ev, ar⟩ := p
    by_cases hres : resolves types (ev, ar) = true
    · cases hmk : mkArtifact types ev ar with
      | none => rw [resolves, hmk] at hres; simp at hres
      | some a =>
        rw [List.takeWhile_cons, List.dropWhile_cons]
        simp only [hres, if_true]
        cases hty : ev.type <;>
          simp [runJoin, processPair, hmk, hty] <;>
          exact ih _
    · have hmk : mkArtifact types ev ar = none := by
        rw [resolves] at hres
        cases hm : mkArtifact types ev ar with
        | none => rfl
        | some a => rw [hm] at hres; simp at hres
      rw [List.takeWhile_cons, List.dropWhile_cons]
      simp only [hres, if_false]
      simp [runJoin, processPair, hmk]

/-!
Further helper lemmas shared by several theorems.
-/

theorem ensureFetched_unpopulated (store : Store) (s : StepState)
    (h : ¬(s.inputs ≠ [] ∨ s.outputs ≠ [])) :
    ensureFetched store s = ((fetchJoin store).1, 1, (fetchJoin store).2) := by
  rw [ensureFetched, if_neg h]

theorem fetchJoin_eq (store : Store)
    (hres : ∀ p ∈ store.events.zip store.artifacts, resolves store.types p = true) :
    fetchJoin store =
      (⟨insList [] (inputKVs store.types (store.events.zip store.artifacts)),
        insList [] (outputKVs store.types (store.events.zip store.artifacts))⟩, none) :=
  runJoin_ok store.types (store.events.zip store.artifacts) initStep hres

theorem fetchJoin_inputs_keys (store : Store)
    (hres : ∀ p ∈ store.events.zip store.artifacts, resolves store.types p = true)
    (hnd : ((inputPairs store).map fun p => p.1.pathKey).Nodup) :
    (fetchJoin store).1.inputs.map Prod.fst = (inputPairs store).map fun p => p.1.pathKey := by
  have hkeys := inputKVs_keys store.types (store.events.zip store.artifacts) hres
  have hnd' : ((inputKVs store.types (store.events.zip store.artifacts)).map Prod.fst).Nodup := by
    rw [hkeys]; exact hnd
  rw [fetchJoin_eq store hres]
  show (insList [] (inputKVs store.types (store.events.zip store.artifacts))).map Prod.fst = _
  rw [insList_keys_nodup _ [] hnd' (by simp), hkeys]
  rfl

theorem fetchJoin_outputs_keys (store : Store)
    (hres : ∀ p ∈ store.events.zip store.artifacts, resolves store.types p = true)
    (hnd : ((outputPairs store).map fun p => p.1.pathKey).Nodup) :
    (fetchJoin store).1.outputs.map Prod.fst = (outputPairs store).map fun p => p.1.pathKey := by
  have hkeys := outputKVs_keys store.types (store.events.zip store.artifacts) hres
  have hnd' : ((outputKVs store.types (store.events.zip store.artifacts)).map Prod.fst).Nodup := by
    rw [hkeys]; exact hnd
  rw [fetchJoin_eq store hres]
  show (insList [] (outputKVs store.types (store.events.zip store.artifacts))).map Prod.fst = _
  rw [insList_keys_nodup _ [] hnd' (by simp), hkeys]
  rfl

theorem fetchJoin_inputs_lookup (store : Store)
    (hres : ∀ p ∈ store.events.zip store.artifacts, resolves store.types p = true)
    (k : String) :
    lookupAssoc (fetchJoin store).1.inputs k
      = lastVal (inputKVs store.types (store.events.zip store.artifacts)) k := by
  rw [fetchJoin_eq store hres]
  show lookupAssoc (insList [] (inputKVs store.types (store.events.zip store.artifacts))) k = _
  rw [lookupAssoc_insList]
  simp [lookupAssoc]

theorem fetchJoin_outputs_lookup (store : Store)
    (hres : ∀ p ∈ store.events.zip store.artifacts, resolves store.types p = true)
    (k : String) :
    lookupAssoc (fetchJoin store).1.outputs k
      = lastVal (outputKVs store.types (store.events.zip store.artifacts)) k := by
  rw [fetchJoin_eq store hres]
  show lookupAssoc (insList [] (outputKVs store.types (store.events.zip store.artifacts))) k = _
  rw [lookupAssoc_insList]
  simp [lookupAssoc]

theorem get_input_names_eq (store : Store) :
    (PEStep.get_input_names store initStep).2 = (fetchJoin store).1.inputs.map Prod.fst := by
  simp only [PEStep.get_input_names,
    ensureFetched_unpopulated store initStep (by simp [initStep])]

theorem get_output_names_eq (store : Store) :
    (PEStep.get_output_names store initStep).2 = (fetchJoin store).1.outputs.map Prod.fst := by
  simp only [PEStep.get_output_names,
    ensureFetched_unpopulated store initStep (by simp [initStep])]

/-!
Concrete stores used as witnesses and counterexamples.
-/

/-- The round-trip scenario store: one COMPLETE execution, an INPUT event
`data` linking artifact 10, an OUTPUT event `model` linking artifact 20,
artifact records 10 and 20, and the type dictionary 1 -> Dataset,
2 -> Model. -/
def rtStore : Store :=
  ⟨[⟨1, .COMPLETE⟩], [⟨1, "Dataset"⟩, ⟨2, "Model"⟩],
   [⟨10, "data", .INPUT⟩, ⟨20, "model", .OUTPUT⟩],
   [⟨10, 1, "/a/10", "m10"⟩, ⟨20, 2, "/a/20", "m20"⟩]⟩

/-- A store whose second event's artifact carries a type id (99) absent
from the type dictionary, so the join fails on the second pair after the
first pair was already inserted. -/
def partialJoinStore : Store :=
  ⟨[⟨1, .COMPLETE⟩], [⟨1, "T"⟩],
   [⟨10, "a", .INPUT⟩, ⟨20, "b", .INPUT⟩],
   [⟨10, 1, "u1", "m1"⟩, ⟨20, 99, "u2", "m2"⟩]⟩

/-- A store that returns no events at all, so the join leaves both
mappings empty and the memoization guard never trips. -/
def emptyEventsStore : Store := ⟨[⟨1, .RUNNING⟩], [], [], []⟩

/-- A store returning two INPUT events with the same parameter name `x`,
linking artifacts 10 and 11. -/
def dupStore : Store :=
  ⟨[⟨1, .COMPLETE⟩], [⟨1, "T"⟩],
   [⟨10, "x", .INPUT⟩, ⟨11, "x", .INPUT⟩],
   [⟨10, 1, "u10", "m"⟩, ⟨11, 1, "u11", "m"⟩]⟩

/-- A store returning the INPUT events for parameters `a`, `b` in the
order `a`, `b`. -/
def declStoreAB : Store :=
  ⟨[⟨1, .COMPLETE⟩], [⟨1, "T"⟩],
   [⟨20, "a", .INPUT⟩, ⟨21, "b", .INPUT⟩],
   [⟨20, 1, "ua", "ma"⟩, ⟨21, 1, "ub", "mb"⟩]⟩

/-- The same events as `declStoreAB` but returned in the opposite
(execution) order `b`, `a`, as for a step whose signature declares the
parameters in the order `a`, `b` while the store returns events in
execution order. -/
def declStoreBA : Store :=
  ⟨[⟨1, .COMPLETE⟩], [⟨1, "T"⟩],
   [⟨21, "b", .INPUT⟩, ⟨20, "a", .INPUT⟩],
   [⟨21, 1, "ub", "mb"⟩, ⟨20, 1, "ua", "ma"⟩]⟩

/-- A store returning two events but only one artifact record, so `zip`
silently drops the trailing event. -/
def mismatchStore : Store :=
  ⟨[⟨1, .COMPLETE⟩], [⟨1, "T"⟩],
   [⟨10, "a", .INPUT⟩, ⟨20, "b", .INPUT⟩],
   [⟨10, 1, "ua", "ma"⟩]⟩

/-- A codec registry that resolves no identifier. -/
def emptyRegistry : Registry := fun _ => none

/-- A codec registry that resolves every identifier to the codec
returning the artifact's URI as the payload. -/
def identityRegistry : Registry := fun _ => some fun uri => uri

/-!
Theorems settling the claims.
-/

/-- C1 (counterexample): the store join is NOT invoked exactly once per
Step View regardless of access pattern.  For a store that returns no
events the join leaves both mappings empty, so the emptiness guard never
trips and accessing `inputs` then `outputs` invokes
`get_events_by_execution_ids` twice, not once. -/
theorem lazy_population_refetch_cex :
    runAccesses emptyEventsStore initStep [.inputs, .outputs] = (initStep, 2)
  ∧ ¬(runAccesses emptyEventsStore initStep [.inputs, .outputs]).2 = 1 :=
  ⟨rfl, by decide⟩

/-- C1 (amended): population executes only when both mappings are
currently empty, and when the join populates at least one entry the
store join is invoked exactly once across any non-empty sequence of
accesses; only when the join leaves both mappings empty is it re-invoked
on later accesses. -/
theorem lazy_population_once_when_populated (store : Store)
    (hne : (fetchJoin store).1.inputs ≠ [] ∨ (fetchJoin store).1.outputs ≠ []) :
    (∀ s : StepState, s.inputs ≠ [] ∨ s.outputs ≠ [] → ensureFetched store s = (s, 0, none))
  ∧ ∀ accesses : List Access, accesses ≠ [] →
      runAccesses store initStep accesses = ((fetchJoin store).1, 1) := by
  refine ⟨fun s h => ensureFetched_nonempty store s h, ?_⟩
  intro accesses hacc
  match accesses with
  | [] => exact absurd rfl hacc
  | a :: rest =>
    calc runAccesses store initStep (a :: rest)
        = runAccessesAux store rest
            ((runAccess store initStep a).1, 0 + (runAccess store initStep a).2) := rfl
      _ = runAccessesAux store rest ((fetchJoin store).1, 1) := by
          rw [runAccess_init store hne a]
          rfl
      _ = ((fetchJoin store).1, 1) := runAccessesAux_populated store _ hne rest 1

theorem lazy_population_once_when_populated_witness :
    runAccesses rtStore initStep [.inputs, .outputs, .get_input_names]
      = ((fetchJoin rtStore).1, 1) :=
  (lazy_population_once_when_populated rtStore (Or.inl (by decide))).2 _ (by decide)

/-- C2: given that the store returned an Execution Record, `status`
returns exactly one of the three statuses, with COMPLETE or CACHED
mapping to Completed, RUNNING to Running and every other state code to
Failed, without raising. -/
theorem status_total_mapping (proto : ExecutionProto) (rest : List ExecutionProto) :
    PEStep.status (proto :: rest) = .ok (mapState proto.last_known_state)
  ∧ (mapState proto.last_known_state = .Completed ↔
      (proto.last_known_state = .COMPLETE ∨ proto.last_known_state = .CACHED))
  ∧ (mapState proto.last_known_state = .Running ↔ proto.last_known_state = .RUNNING)
  ∧ (mapState proto.last_known_state = .Failed ↔
      ¬(proto.last_known_state = .COMPLETE ∨ proto.last_known_state = .CACHED ∨
        proto.last_known_state = .RUNNING)) := by
  refine ⟨rfl, ?_, ?_, ?_⟩ <;>
    (generalize proto.last_known_state = s; cases s <;> decide)

/-- C3: when every artifact type resolves, the iteration order of the
populated mappings follows the order in which the store returned the
events (per direction, here stated for per-direction distinct names),
and when the store returns several events with the same name in the
same direction the mapping holds the artifact of the last such event
(last-write-wins keyed on parameter name). -/
theorem join_store_order_last_write_wins (store : Store)
    (hres : ∀ p ∈ store.events.zip store.artifacts, resolves store.types p = true) :
    (((inputPairs store).map fun p => p.1.pathKey).Nodup →
        (fetchJoin store).1.inputs.map Prod.fst = (inputPairs store).map fun p => p.1.pathKey)
  ∧ (((outputPairs store).map fun p => p.1.pathKey).Nodup →
        (fetchJoin store).1.outputs.map Prod.fst = (outputPairs store).map fun p => p.1.pathKey)
  ∧ (∀ k, lookupAssoc (fetchJoin store).1.inputs k
        = lastVal (inputKVs store.types (store.events.zip store.artifacts)) k)
  ∧ (∀ k, lookupAssoc (fetchJoin store).1.outputs k
        = lastVal (outputKVs store.types (store.events.zip store.artifacts)) k) :=
  ⟨fun hnd => fetchJoin_inputs_keys store hres hnd,
   fun hnd => fetchJoin_outputs_keys store hres hnd,
   fun k => fetchJoin_inputs_lookup store hres k,
   fun k => fetchJoin_outputs_lookup store hres k⟩

theorem join_store_order_last_write_wins_witness :
    lookupAssoc (fetchJoin dupStore).1.inputs "x" = some ⟨11, "T", "u11", "m"⟩
  ∧ (fetchJoin rtStore).1.inputs.map Prod.fst = ["data"] := by
  constructor
  · rw [(join_store_order_last_write_wins dupStore (by decide)).2.2.1 "x"]
    rfl
  · rw [(join_store_order_last_write_wins rtStore (by decide)).1 (by decide)]
    rfl

/-- C4: the round-trip scenario: status Completed, inputs equal to the
single-entry mapping data -> ArtifactView(10, Dataset, /a/10, ...) and
outputs equal to model -> ArtifactView(20, Model, /a/20, ...). -/
theorem round_trip_scenario :
    PEStep.status rtStore.executions = .ok .Completed
  ∧ (PEStep.inputs rtStore initStep).2 = [⟨10, "Dataset", "/a/10", "m10"⟩]
  ∧ (PEStep.outputs rtStore initStep).2 = [⟨20, "Model", "/a/20", "m20"⟩]
  ∧ (PEStep.get_input_names rtStore initStep).2 = ["data"]
  ∧ (PEStep.get_output_names rtStore initStep).2 = ["model"]
  ∧ (PEStep.get_input rtStore initStep "data").2 = .ok ⟨10, "Dataset", "/a/10", "m10"⟩
  ∧ (PEStep.get_output rtStore initStep "model").2 = .ok ⟨20, "Model", "/a/20", "m20"⟩ :=
  ⟨rfl, rfl, rfl, rfl, rfl, rfl, rfl⟩

/-- C5: `read` with a codec override uses that override without
consulting the registry (the result is the same for every registry);
with no override the stored identifier is resolved through the registry,
an unresolvable identifier propagating as the LookupError-kind failure
and a resolved codec being invoked on the view's URI. -/
theorem read_codec_dispatch (registry : Registry) (a : PEArtifact) :
    (∀ codec, PEArtifact.read registry a (some codec) = .ok (codec a.uri)
       ∧ ∀ registry2 : Registry,
           PEArtifact.read registry2 a (some codec) = PEArtifact.read registry a (some codec))
  ∧ (registry a.materializer = none →
       PEArtifact.read registry a none = .error (.lookupError a.materializer))
  ∧ ∀ codec, registry a.materializer = some codec →
       PEArtifact.read registry a none = .ok (codec a.uri) := by
  refine ⟨fun codec => ⟨rfl, fun registry2 => rfl⟩, fun h => ?_, fun codec h => ?_⟩ <;>
    simp [PEArtifact.read, h]

theorem read_codec_dispatch_witness :
    PEArtifact.read emptyRegistry ⟨10, "Dataset", "/a/10", "m10"⟩ none
        = .error (.lookupError "m10")
  ∧ PEArtifact.read identityRegistry ⟨10, "Dataset", "/a/10", "m10"⟩ none = .ok "/a/10" :=
  ⟨(read_codec_dispatch emptyRegistry ⟨10, "Dataset", "/a/10", "m10"⟩).2.1 rfl,
   (read_codec_dispatch identityRegistry ⟨10, "Dataset", "/a/10", "m10"⟩).2.2 _ rfl⟩

/-- C6: when the lazy population succeeds, `get_input`/`get_output` on a
name present in the populated mapping return the mapped artifact view;
on an absent name they raise the NotFound-kind error carrying the
requested name and exactly the list of currently known valid names in
that direction (a join that itself fails instead propagates its own
error out of the accessor, per the propagation policy). -/
theorem get_missing_name_not_found (store : Store) (name : String)
    (hjoin : (fetchJoin store).2 = none) :
    (∀ a, lookupAssoc (fetchJoin store).1.inputs name = some a →
        (PEStep.get_input store initStep name).2 = .ok a)
  ∧ (lookupAssoc (fetchJoin store).1.inputs name = none →
        (PEStep.get_input store initStep name).2
          = .error (.notFound name ((PEStep.get_input_names store initStep).2)))
  ∧ (∀ a, lookupAssoc (fetchJoin store).1.outputs name = some a →
        (PEStep.get_output store initStep name).2 = .ok a)
  ∧ (lookupAssoc (fetchJoin store).1.outputs name = none →
        (PEStep.get_output store initStep name).2
          = .error (.notFound name ((PEStep.get_output_names store initStep).2))) := by
  have hinit : ensureFetched store initStep = ((fetchJoin store).1, 1, none) := by
    rw [ensureFetched_unpopulated store initStep (by simp [initStep]), hjoin]
  refine ⟨?_, ?_, ?_, ?_⟩
  · intro a ha
    simp only [PEStep.get_input, hinit, ha]
  · intro hnone
    rw [get_input_names_eq store]
    by_cases hpop : (fetchJoin store).1.inputs ≠ [] ∨ (fetchJoin store).1.outputs ≠ []
    · simp only [PEStep.get_input, hinit, hnone, ensureFetched_nonempty store _ hpop]
    · simp only [PEStep.get_input, hinit, hnone,
        ensureFetched_unpopulated store _ hpop, hjoin]
  · intro a ha
    simp only [PEStep.get_output, hinit, ha]
  · intro hnone
    rw [get_output_names_eq store]
    by_cases hpop : (fetchJoin store).1.inputs ≠ [] ∨ (fetchJoin store).1.outputs ≠ []
    · simp only [PEStep.get_output, hinit, hnone, ensureFetched_nonempty store _ hpop]
    · simp only [PEStep.get_output, hinit, hnone,
        ensureFetched_unpopulated store _ hpop, hjoin]

theorem get_missing_name_not_found_witness :
    (PEStep.get_input rtStore initStep "nope").2 = .error (.notFound "nope" ["data"])
  ∧ (PEStep.get_input rtStore initStep "data").2 = .ok ⟨10, "Dataset", "/a/10", "m10"⟩ := by
  constructor
  · rw [(get_missing_name_not_found rtStore "nope" rfl).2.1 rfl]
    rfl
  · exact (get_missing_name_not_found rtStore "data" rfl).1 _ rfl

/-- C7 (counterexample): the join is NOT atomic.  When the second pair's
artifact type (99) cannot be resolved, the join aborts with the KeyError
but the first pair's entry is already inserted into `_inputs`, so the
state does not remain unchanged; moreover the next guarded access then
treats the step as populated and silently reports no error. -/
theorem join_partial_state_cex :
    fetchJoin partialJoinStore
      = (⟨[("a", ⟨10, "T", "u1", "m1"⟩)], []⟩, some (.typeKeyError 99))
  ∧ ¬(fetchJoin partialJoinStore).1 = initStep
  ∧ ensureFetched partialJoinStore (fetchJoin partialJoinStore).1
      = ((fetchJoin partialJoinStore).1, 0, none) :=
  ⟨rfl, by decide, ensureFetched_nonempty _ _ (Or.inl (by decide))⟩

/-- C7 (amended): the join is fail-fast — the first pair whose artifact
type does not resolve aborts the loop with that pair's KeyError and no
later pair is processed — but it is not atomic: the state produced is
the one accumulated over the longest resolvable prefix of the zipped
pairs, so entries inserted before the failure remain in the mappings. -/
theorem join_fail_fast_first_error (store : Store) :
    fetchJoin store
      = ((runJoin store.types
            ((store.events.zip store.artifacts).takeWhile (resolves store.types))
            initStep).1,
         match (store.events.zip store.artifacts).dropWhile (resolves store.types) with
         | [] => none
         | p :: _ => some (.typeKeyError p.2.type_id)) :=
  runJoin_fail_fast store.types (store.events.zip store.artifacts) initStep

/-- C8 (counterexample): the insertion order of the mappings does not
follow the declaration order of the step signature's parameters.  For a
step declaring the parameters in the order a, b, a store returning the
INPUT events in execution order b, a yields the names b, a; the order is
a function of the store's event order alone, as the two stores differing
only in event order show. -/
theorem mapping_order_from_store_cex :
    (PEStep.get_input_names declStoreBA initStep).2 = ["b", "a"]
  ∧ (PEStep.get_input_names declStoreAB initStep).2 = ["a", "b"]
  ∧ ¬(PEStep.get_input_names declStoreBA initStep).2
      = (PEStep.get_input_names declStoreAB initStep).2 :=
  ⟨rfl, rfl, by decide⟩

/-- C8 (amended): the insertion order of entries in the mappings equals
the order in which the store returned the events (per direction); it
coincides with parameter-declaration order only when the store returns
the events in that order. -/
theorem names_follow_store_event_order (store : Store)
    (hres : ∀ p ∈ store.events.zip store.artifacts, resolves store.types p = true) :
    (((inputPairs store).map fun p => p.1.pathKey).Nodup →
        (PEStep.get_input_names store initStep).2
          = (inputPairs store).map fun p => p.1.pathKey)
  ∧ (((outputPairs store).map fun p => p.1.pathKey).Nodup →
        (PEStep.get_output_names store initStep).2
          = (outputPairs store).map fun p => p.1.pathKey) :=
  ⟨fun hnd => by rw [get_input_names_eq store, fetchJoin_inputs_keys store hres hnd],
   fun hnd => by rw [get_output_names_eq store, fetchJoin_outputs_keys store hres hnd]⟩

theorem names_follow_store_event_order_witness :
    (PEStep.get_input_names declStoreBA initStep).2
      = (inputPairs declStoreBA).map fun p => p.1.pathKey :=
  (names_follow_store_event_order declStoreBA (by decide)).1 (by decide)

/-- C9: events and artifacts are paired strictly positionally by `zip`:
the join's result only depends on the first `min` (of the two lengths)
elements of each list, so unmatched trailing events are dropped and
extra artifact records are ignored, and a length mismatch by itself
never produces an error (the join succeeds whenever every zipped pair's
type resolves). -/
theorem zip_positional_pairing (store : Store) :
    (fetchJoin store = fetchJoin
        { store with
          events := store.events.take (min store.events.length store.artifacts.length),
          artifacts := store.artifacts.take (min store.events.length store.artifacts.length) })
  ∧ ((∀ p ∈ store.events.zip store.artifacts, resolves store.types p = true) →
      (fetchJoin store).2 = none) := by
  constructor
  · show runJoin store.types (store.events.zip store.artifacts) initStep
      = runJoin store.types
          ((store.events.take (min store.events.length store.artifacts.length)).zip
            (store.artifacts.take (min store.events.length store.artifacts.length)))
          initStep
    rw [← List.zip_eq_zip_take_min]
  · intro h
    show (runJoin store.types (store.events.zip store.artifacts) initStep).2 = none
    rw [runJoin_ok store.types (store.events.zip store.artifacts) initStep h]

theorem zip_positional_pairing_witness :
    (fetchJoin mismatchStore).2 = none
  ∧ (fetchJoin mismatchStore).1.inputs.map Prod.fst = ["a"] :=
  ⟨(zip_positional_pairing mismatchStore).2 (by decide), rfl⟩

/-- C10: when the facade's `get_executions_by_id` returns an empty
sequence, accessing `status` raises the IndexError from indexing `[0]`
instead of returning the Failed status. -/
theorem status_raises_on_empty_executions :
    PEStep.status [] = .error .indexError
  ∧ ∀ st : ExecutionStatus, ¬PEStep.status [] = .ok st :=
  ⟨rfl, fun _ h => Except.noConfusion h⟩
